import Mathlib

/-!
Verification development for pahkat-reposrv.

Shallow embedding of the repository's core logic:
- the package / release / target data model (fields of the external
  pahkat_types records that the source actually touches),
- the binary catalog builder (src declares `mod indexing`; the module body
  is not in the source tree, so `build_index` is modelled from the spec),
- `generate_repo_index` (src/main.rs),
- the download endpoint (src/openapi.rs `download`),
- the mutation handlers (src/openapi.rs `create_package_metadata`,
  `update_package_metadata`) over an environment that supplies the results
  of the external git subprocesses and of the external pahkat_repomgr calls,
- the git workspace operations (src/git.rs `GitRepo`),
- the reconciliation loop (src/main.rs `refresh_indexes`,
  `refresh_indexes_forever`) and the atomically-swapped per-repository
  index slots (src/main.rs `RepoIndexes`, src/state.rs `set_repo_indexes`),
- the legacy 0.1.0 workaround index and its per-process cache
  (src/openapi.rs `repository_index_bin`, `DIVVUN_INST_REPO_INDEX`,
  src/main.rs `generate_010_workaround_index`).

External effects (filesystem reads, git subprocess results) are passed in
explicitly as environment values; machine-level details (HTTP encoding,
the tokio runtime) are outside the embedding.
-/

namespace PahkatReposrv

/-- Decidable equality for `Except`, used to evaluate concrete outcomes. -/
instance {ε α : Type} [DecidableEq ε] [DecidableEq α] : DecidableEq (Except ε α)
| .ok a, .ok b =>
    if h : a = b then .isTrue (by rw [h])
    else .isFalse (by intro hc; cases hc; exact h rfl)
| .ok _, .error _ => .isFalse (by intro hc; cases hc)
| .error _, .ok _ => .isFalse (by intro hc; cases hc)
| .error e, .error f =>
    if h : e = f then .isTrue (by rw [h])
    else .isFalse (by intro hc; cases hc; exact h rfl)

/-- Content bytes of a catalog; the flatbuffer output is a byte sequence. -/
abbrev Bytes := List Nat

/-- Repository identifier (a key of the configured `repos` list). -/
abbrev RepoId := String

/-- pahkat_types::payload::Target, restricted to the fields the server
reads: the platform tag and the payload's resolvable URL. -/
structure Target where
  platform : String
  payloadUrl : String
deriving DecidableEq

/-- pahkat_types::package::Release, restricted to the fields the server
reads: version string, optional channel (absence = stable), targets. -/
structure Release where
  version : String
  channel : Option String
  targets : List Target
deriving DecidableEq

/-- pahkat_types::package::Descriptor: package id and tags
(DescriptorData), name / description language maps, releases. -/
structure Descriptor where
  id : String
  tags : List String
  name : List (String × String)
  description : List (String × String)
  release : List Release
deriving DecidableEq

/-- pahkat_types::package::Package; the server only ever constructs and
serializes concrete packages. -/
inductive Package
| concrete (d : Descriptor)
deriving DecidableEq

/-- Modelled from the spec: byte encoding of one string for the binary
catalog (`mod indexing` is declared in src/main.rs but its body is not in
the source tree). Length-prefixed code points; self-describing. -/
def encodeString (s : String) : Bytes :=
  s.length :: s.toList.map Char.toNat

/-- Modelled from the spec: encoding of an optional string (channel). -/
def encodeOptionString : Option String → Bytes
| none => [0]
| some s => 1 :: encodeString s

/-- Modelled from the spec: encoding of one target (platform + payload
URL), as required by the catalog format. -/
def Target.encode (t : Target) : Bytes :=
  encodeString t.platform ++ encodeString t.payloadUrl

/-- Modelled from the spec: encoding of one release
(version, channel, targets). -/
def Release.encode (r : Release) : Bytes :=
  encodeString r.version ++ encodeOptionString r.channel ++
    (r.targets.length :: (r.targets.map Target.encode).flatten)

/-- Modelled from the spec: encoding of one package descriptor
(identifier plus its releases). -/
def Descriptor.encode (d : Descriptor) : Bytes :=
  encodeString d.id ++ (d.release.length :: (d.release.map Release.encode).flatten)

/-- Modelled from the spec: encoding of a package. -/
def Package.encode : Package → Bytes
| .concrete d => d.encode

/-- Per-run builder state of the flatbuffer builder.  Each source call
site constructs a fresh `FlatBufferBuilder::new()`; run-to-run allocation
details (modelled as `capacity`) may differ between two invocations. -/
structure FlatBufferBuilder where
  capacity : Nat
deriving DecidableEq

/-- Modelled from the spec: `indexing::build_index`, run against a given
builder.  The emitted catalog is a pure, self-describing encoding of the
ordered package collection; builder allocation state does not leak into
the output bytes. -/
def build_index_run (_b : FlatBufferBuilder) (packages : List Package) : Bytes :=
  packages.length :: (packages.map Package.encode).flatten

/-- Modelled from the spec: the catalog produced by one fresh-builder run,
as performed by `generate_repo_index` / `generate_empty_index`. -/
def build_index (packages : List Package) : Bytes :=
  build_index_run ⟨0⟩ packages

/-- src/main.rs `generate_empty_index`: catalog of the empty collection. -/
def generate_empty_index : Bytes := build_index []

/-- Result of reading + parsing one package subdirectory's `index.toml`:
`unreadable` models a missing file or a `read_to_string` error,
`malformed` a TOML deserialization error. -/
inductive ReadResult
| unreadable
| malformed
| ok (p : Package)
deriving DecidableEq

/-- One entry of the `packages/` directory listing, as consumed by
`generate_repo_index`: whether `file_type()` reports a directory, and the
outcome of reading that subdirectory's `index.toml`. -/
structure DirEntry where
  isDir : Bool
  read : ReadResult
deriving DecidableEq

/-- A well-formed package subdirectory. -/
def goodEntry (p : Package) : DirEntry := ⟨true, .ok p⟩

/-- src/main.rs `generate_repo_index`, collection phase: keep directory
entries, skip (with a log line) entries whose `index.toml` is missing,
unreadable or malformed, keep the parsed packages in listing order. -/
def collectPackages (entries : List DirEntry) : List Package :=
  (entries.filter (fun e => e.isDir)).filterMap fun e =>
    match e.read with
    | .ok p => some p
    | _ => none

/-- src/main.rs `generate_repo_index`: the listing argument is the result
of `create_dir_all` + `read_dir` (`.error` models an IO failure there);
on success the catalog is built from the collected packages. -/
def generate_repo_index (listing : Except Unit (List DirEntry)) : Except Unit Bytes :=
  match listing with
  | .error e => .error e
  | .ok entries => .ok (build_index (collectPackages entries))

theorem collectPackages_append (xs ys : List DirEntry) :
    collectPackages (xs ++ ys) = collectPackages xs ++ collectPackages ys := by
  simp [collectPackages, List.filter_append, List.filterMap_append]

theorem collectPackages_goodEntries (ps : List Package) :
    collectPackages (ps.map goodEntry) = ps := by
  induction ps with
  | nil => rfl
  | cons p ps ih =>
    simp [collectPackages, goodEntry] at ih ⊢
    exact ih

theorem collectPackages_badEntry_cons (e : DirEntry) (rest : List DirEntry)
    (hbad : e.read = .unreadable ∨ e.read = .malformed) :
    collectPackages (e :: rest) = collectPackages rest := by
  rcases hbad with h | h <;>
    cases hdir : e.isDir <;>
      simp [collectPackages, hdir, h]

/-- Claim C4: a rebuild over N package subdirectories of which exactly one
has a missing, unreadable, or malformed descriptor and the other N-1 parse
correctly succeeds (is not aborted), and the produced catalog is built
from exactly the N-1 well-formed package records, in order, with the bad
package skipped. -/
theorem claim_c4_fault_isolation (pas pbs : List Package) (bad : DirEntry)
    (_hdir : bad.isDir = true)
    (hbad : bad.read = .unreadable ∨ bad.read = .malformed) :
    collectPackages (pas.map goodEntry ++ bad :: pbs.map goodEntry) = pas ++ pbs ∧
    generate_repo_index (.ok (pas.map goodEntry ++ bad :: pbs.map goodEntry)) =
      .ok (build_index (pas ++ pbs)) ∧
    (collectPackages (pas.map goodEntry ++ bad :: pbs.map goodEntry)).length =
      (pas.map goodEntry ++ bad :: pbs.map goodEntry).length - 1 := by
  have hcollect :
      collectPackages (pas.map goodEntry ++ bad :: pbs.map goodEntry) = pas ++ pbs := by
    rw [collectPackages_append, collectPackages_badEntry_cons bad _ hbad,
      collectPackages_goodEntries, collectPackages_goodEntries]
  refine ⟨hcollect, ?_, ?_⟩
  · simp [generate_repo_index, hcollect]
  · simp [hcollect]

/-- Witness for C4 at a concrete listing: two good packages around one
malformed entry give back exactly the two good records. -/
theorem claim_c4_witness :
    collectPackages
        ([Package.concrete ⟨"a", [], [], [], []⟩].map goodEntry ++
          (⟨true, .malformed⟩ : DirEntry) ::
            [Package.concrete ⟨"b", [], [], [], []⟩].map goodEntry) =
      [Package.concrete ⟨"a", [], [], [], []⟩, Package.concrete ⟨"b", [], [], [], []⟩] := by
  have h := claim_c4_fault_isolation
    [Package.concrete ⟨"a", [], [], [], []⟩]
    [Package.concrete ⟨"b", [], [], [], []⟩]
    ⟨true, .malformed⟩ rfl (Or.inr rfl)
  exact h.1

/-- Claim C9: building the binary catalog twice from the same ordered
package collection yields byte-identical output, whatever run-specific
builder state each of the two runs starts from. -/
theorem claim_c9_deterministic_build (b1 b2 : FlatBufferBuilder)
    (packages : List Package) :
    build_index_run b1 packages = build_index_run b2 packages ∧
    build_index_run b1 packages = build_index packages := by
  exact ⟨rfl, rfl⟩

/-- Result of the download endpoint, as observable by the caller:
a 307 redirect carrying the payload URL, 404, 400 for a missing
`platform` query parameter, or 500 for a read / parse failure. -/
inductive DownloadResult
| redirect (url : String)
| notFound
| badRequestMissingPlatform
| internalError
deriving DecidableEq

/-- src/openapi.rs `download`, per-release channel test: the release's
channel, defaulted to "stable" when absent, must equal the query's
channel, defaulted the same way. -/
def channelMatches (queryChannel : Option String) (r : Release) : Bool :=
  r.channel.getD "stable" == queryChannel.getD "stable"

/-- src/openapi.rs `download`, release loop: walk the descriptor's
releases in order, skip releases on another channel, return the payload
URL of the first target whose platform equals the query's platform. -/
def findReleaseUrl (platform : String) (queryChannel : Option String) :
    List Release → Option String
| [] => none
| r :: rs =>
  if channelMatches queryChannel r then
    match r.targets.find? (fun t => t.platform == platform) with
    | some t => some t.payloadUrl
    | none => findReleaseUrl platform queryChannel rs
  else
    findReleaseUrl platform queryChannel rs

/-- src/openapi.rs `download`: reject unknown repositories, reject a
missing `platform` query parameter, read + parse the package's
`index.toml` (failure is a 500), then scan the releases. -/
def download (repos : List RepoId) (repoId : RepoId)
    (platform : Option String) (queryChannel : Option String)
    (readIndex : Except Unit Descriptor) : DownloadResult :=
  if ¬ repos.contains repoId then .notFound
  else
    match platform with
    | none => .badRequestMissingPlatform
    | some plat =>
      match readIndex with
      | .error _ => .internalError
      | .ok d =>
        match findReleaseUrl plat queryChannel d.release with
        | some url => .redirect url
        | none => .notFound

/-- The selection rule of the spec: a release is eligible when its channel
(absent meaning stable) equals the requested channel (same default) and it
has a target whose platform matches the request exactly. -/
def ReleaseMatches (plat : String) (queryChannel : Option String) (r : Release) : Prop :=
  r.channel.getD "stable" = queryChannel.getD "stable" ∧
    ∃ t ∈ r.targets, t.platform = plat

theorem channelMatches_iff (qc : Option String) (r : Release) :
    channelMatches qc r = true ↔ r.channel.getD "stable" = qc.getD "stable" := by
  simp [channelMatches]

theorem findReleaseUrl_none (plat : String) (qc : Option String)
    (rs : List Release) (h : findReleaseUrl plat qc rs = none) :
    ∀ r ∈ rs, ¬ ReleaseMatches plat qc r := by
  induction rs with
  | nil => intro r hr; cases hr
  | cons r rs ih =>
    intro r' hr'
    by_cases hch : channelMatches qc r = true
    · cases hfind : r.targets.find? (fun t => t.platform == plat) with
      | some t =>
        rw [findReleaseUrl, if_pos hch, hfind] at h
        cases h
      | none =>
        rw [findReleaseUrl, if_pos hch, hfind] at h
        rcases List.mem_cons.mp hr' with rfl | hmem
        · rintro ⟨-, t, ht, hplat⟩
          have := List.find?_eq_none.mp hfind t ht
          simp [hplat] at this
        · exact ih h r' hmem
    · rw [findReleaseUrl, if_neg hch] at h
      rcases List.mem_cons.mp hr' with rfl | hmem
      · rintro ⟨hcheq, -⟩
        exact hch ((channelMatches_iff qc r').mpr hcheq)
      · exact ih h r' hmem

theorem findReleaseUrl_some (plat : String) (qc : Option String)
    (rs : List Release) (u : String)
    (h : findReleaseUrl plat qc rs = some u) :
    ∃ r ∈ rs, ReleaseMatches plat qc r ∧
      ∃ t ∈ r.targets, t.platform = plat ∧ t.payloadUrl = u := by
  induction rs with
  | nil => cases h
  | cons r rs ih =>
    by_cases hch : channelMatches qc r = true
    · cases hfind : r.targets.find? (fun t => t.platform == plat) with
      | some t =>
        rw [findReleaseUrl, if_pos hch, hfind] at h
        have hmem := List.mem_of_find?_eq_some hfind
        have hpl : t.platform = plat := by
          have := List.find?_some hfind
          simpa using this
        refine ⟨r, List.mem_cons_self r rs,
          ⟨(channelMatches_iff qc r).mp hch, t, hmem, hpl⟩,
          t, hmem, hpl, ?_⟩
        cases h
        rfl
      | none =>
        rw [findReleaseUrl, if_pos hch, hfind] at h
        obtain ⟨r', hr', hm, hrest⟩ := ih h
        exact ⟨r', List.mem_cons_of_mem r hr', hm, hrest⟩
    · rw [findReleaseUrl, if_neg hch] at h
      obtain ⟨r', hr', hm, hrest⟩ := ih h
      exact ⟨r', List.mem_cons_of_mem r hr', hm, hrest⟩

/-- Claim C8: for a recognized repository and an existing, parseable
package descriptor: an absent `platform` query parameter yields the
invalid-input (400) error; when a platform is given and some release on
the requested channel (absent meaning stable on either side) has a target
with exactly that platform, the endpoint redirects to such a target's
payload URL; when no release / target combination matches, it returns
not-found. -/
theorem claim_c8_download (repos : List RepoId) (repoId : RepoId)
    (queryChannel : Option String) (d : Descriptor)
    (hrepo : repos.contains repoId = true) :
    download repos repoId none queryChannel (.ok d) = .badRequestMissingPlatform ∧
    (∀ plat : String,
      (∃ r ∈ d.release, ReleaseMatches plat queryChannel r) →
        ∃ r ∈ d.release, ReleaseMatches plat queryChannel r ∧
          ∃ t ∈ r.targets, t.platform = plat ∧
            download repos repoId (some plat) queryChannel (.ok d) =
              .redirect t.payloadUrl) ∧
    (∀ plat : String,
      (¬ ∃ r ∈ d.release, ReleaseMatches plat queryChannel r) →
        download repos repoId (some plat) queryChannel (.ok d) = .notFound) := by
  have hmem : repoId ∈ repos := by simpa using hrepo
  refine ⟨by simp [download, hmem], ?_, ?_⟩
  · intro plat hex
    cases hfind : findReleaseUrl plat queryChannel d.release with
    | none =>
      obtain ⟨r, hr, hm⟩ := hex
      exact absurd hm (findReleaseUrl_none plat queryChannel d.release hfind r hr)
    | some u =>
      obtain ⟨r, hr, hm, t, ht, hplat, hurl⟩ :=
        findReleaseUrl_some plat queryChannel d.release u hfind
      refine ⟨r, hr, hm, t, ht, hplat, ?_⟩
      simp [download, hmem, hfind, hurl]
  · intro plat hnone
    cases hfind : findReleaseUrl plat queryChannel d.release with
    | none => simp [download, hmem, hfind]
    | some u =>
      obtain ⟨r, hr, hm, -⟩ :=
        findReleaseUrl_some plat queryChannel d.release u hfind
      exact absurd ⟨r, hr, hm⟩ hnone

/-- Witness for C8 at a concrete repository and descriptor: one stable
release with a windows target redirects to its payload URL; platform
absent gives the 400; a mac query gives not-found. -/
theorem claim_c8_witness :
    (["divvun-installer"] : List RepoId).contains "divvun-installer" = true ∧
    download ["divvun-installer"] "divvun-installer" (some "windows") none
        (.ok ⟨"pkg", [], [], [],
          [⟨"1.0.0", none, [⟨"windows", "https://x.example/p.exe"⟩]⟩]⟩) =
      .redirect "https://x.example/p.exe" := by
  have h := claim_c8_download ["divvun-installer"] "divvun-installer" none
    ⟨"pkg", [], [], [], [⟨"1.0.0", none, [⟨"windows", "https://x.example/p.exe"⟩]⟩]⟩
    (by decide)
  obtain ⟨-, hsome, -⟩ := h
  obtain ⟨r, hr, -, t, ht, -, hdl⟩ := hsome "windows"
    ⟨⟨"1.0.0", none, [⟨"windows", "https://x.example/p.exe"⟩]⟩,
      by simp, by simp [ReleaseMatches], ⟨"windows", "https://x.example/p.exe"⟩,
      by simp, rfl⟩
  refine ⟨by decide, ?_⟩
  simp at hr
  subst hr
  simp at ht
  subst ht
  exact hdl

/-- Server configuration (src/main.rs `Config`), restricted to the fields
the embedded operations consult. -/
structure Config where
  repos : List RepoId
  url : String
  branch_name : String
deriving DecidableEq

/-- src/git.rs `GitRepo` plus the state of the working tree it manages:
`head_ref` is the struct field (the last-observed commit id), `actualHead`
the commit the on-disk working tree is actually checked out at. -/
structure GitState where
  head_ref : String
  actualHead : String
deriving DecidableEq

/-- External side effects a mutation sequence performs, in order:
the three cleanup commands, the metadata write on disk, `git add`,
`git commit`, `git push`. -/
inductive Action
| clean
| fetch
| reset
| writeMeta
| add
| commit
| push
deriving DecidableEq

/-- Outcome of `GitRepo::cleanup`'s three subprocess invocations; a
`Command::status()` error is a spawn failure, which aborts the remaining
commands of the sequence via `?`. -/
inductive CleanupOutcome
| ok
| failClean
| failFetch
| failReset
deriving DecidableEq

/-- Results of the external calls a mutation makes, supplied as an
environment: the remote branch tip the cleanup resets to, the cleanup
outcome, pahkat_repomgr's `package::init` / `package::update` results, the
external version parser (pahkat_types `version.parse()`), the results of
`git add` and `git commit` (carrying the post-commit `rev-parse HEAD`;
their `.error` cases, like the cleanup's, model `Command` spawn failures,
the only failures those call sites observe), and the spawn result of
`git push`.  The push is the one command whose exit status matters to a
claim, so it is carried explicitly: `pushSpawn = .error ()` is a spawn
failure, `.ok exitOk` a spawned push whose process exited successfully
(`true`) or unsuccessfully (`false`, e.g. rejected by the remote). -/
structure MutEnv where
  remoteTip : String
  cleanupOutcome : CleanupOutcome
  initResult : Except Unit Unit
  parseVersion : String → Option String
  updateResult : Except Unit Unit
  addResult : Except Unit Unit
  commitResult : Except Unit String
  pushSpawn : Except Unit Bool

/-- src/git.rs `GitRepo::cleanup`: `git clean -dfx`, `git fetch origin
BRANCH`, `git reset --hard origin/BRANCH`.  On success the working tree is
checked out at the fetched remote tip; the `head_ref` FIELD of the struct
is not written (the method takes `&self`). -/
def GitRepo.cleanup (env : MutEnv) (g : GitState) :
    Except Unit GitState × List Action :=
  match env.cleanupOutcome with
  | .ok => (.ok { g with actualHead := env.remoteTip }, [.clean, .fetch, .reset])
  | .failClean => (.error (), [.clean])
  | .failFetch => (.error (), [.clean, .fetch])
  | .failReset => (.error (), [.clean, .fetch, .reset])

/-- src/git.rs `GitRepo::push`: run `git push origin HEAD:BRANCH` with
`Command::status()?`.  Only a spawn failure propagates as `Err`; the exit
status of a push that did run is DISCARDED, so a push the remote rejected
still returns `Ok(())`. -/
def GitRepo.push (spawn : Except Unit Bool) : Except Unit Unit :=
  match spawn with
  | .error e => .error e
  | .ok _ => .ok ()

/-- Error responses of the OpenAPI mutation / query handlers. -/
inductive IseKind
| ioError
| versionError
| repoError
deriving DecidableEq

/-- poem error constructors used by the handlers: `NotFoundError`,
`Conflict(PackageExistsError)`, `BadRequest`, `InternalServerError`
(with the wrapped error kind). -/
inductive ApiError
| notFound
| conflict (pkgId : String)
| badRequest
| ise (k : IseKind)
deriving DecidableEq

/-- Success body of the create / update mutations. -/
structure MutationResponse where
  repo_id : String
  package_id : String
  success : Bool
deriving DecidableEq

/-- What a mutation handler produces: the response or error returned to
the caller, the final `GitRepo` + working-tree state, and the external
actions that were performed, in order. -/
structure MutOutcome where
  result : Except ApiError MutationResponse
  git : GitState
  actions : List Action

/-- src/openapi.rs `create_package_metadata`: unknown repository is 404;
an existing `index.toml` for the package is a 409 conflict checked before
any workspace operation; then cleanup, `package::init` (400 on failure),
`git add`, `git commit` (updating `head_ref` from `rev-parse HEAD`),
`git push`; any of those failing is a 500. -/
def create_package_metadata (cfg : Config) (repoId pkgId : String)
    (pkgIndexExists : Bool) (env : MutEnv) (g : GitState) : MutOutcome :=
  if ¬ cfg.repos.contains repoId then ⟨.error .notFound, g, []⟩
  else if pkgIndexExists then ⟨.error (.conflict pkgId), g, []⟩
  else
    match GitRepo.cleanup env g with
    | (.error _, acts) => ⟨.error (.ise .ioError), g, acts⟩
    | (.ok g1, acts) =>
      match env.initResult with
      | .error _ => ⟨.error .badRequest, g1, acts⟩
      | .ok _ =>
        match env.addResult with
        | .error _ => ⟨.error (.ise .ioError), g1, acts ++ [.writeMeta, .add]⟩
        | .ok _ =>
          match env.commitResult with
          | .error _ =>
            ⟨.error (.ise .ioError), g1, acts ++ [.writeMeta, .add, .commit]⟩
          | .ok newHead =>
            match GitRepo.push env.pushSpawn with
            | .error _ =>
              ⟨.error (.ise .ioError), ⟨newHead, newHead⟩,
                acts ++ [.writeMeta, .add, .commit, .push]⟩
            | .ok _ =>
              ⟨.ok ⟨repoId, pkgId, true⟩, ⟨newHead, newHead⟩,
                acts ++ [.writeMeta, .add, .commit, .push]⟩

/-- src/openapi.rs `update_package_metadata`: unknown repository or
missing package `index.toml` is 404; then cleanup, then
`modify_repo_metadata` which first parses the request's version string
(a parse failure is returned before any write, wrapped by the handler in
`InternalServerError`), then `package::update`; then `git add`,
`git commit`, `git push`, each failure a 500. -/
def update_package_metadata (cfg : Config) (repoId pkgId : String)
    (pkgIndexExists : Bool) (env : MutEnv) (version : String)
    (g : GitState) : MutOutcome :=
  if ¬ cfg.repos.contains repoId then ⟨.error .notFound, g, []⟩
  else if ¬ pkgIndexExists then ⟨.error .notFound, g, []⟩
  else
    match GitRepo.cleanup env g with
    | (.error _, acts) => ⟨.error (.ise .ioError), g, acts⟩
    | (.ok g1, acts) =>
      match env.parseVersion version with
      | none => ⟨.error (.ise .versionError), g1, acts⟩
      | some _ =>
        match env.updateResult with
        | .error _ => ⟨.error (.ise .repoError), g1, acts⟩
        | .ok _ =>
          match env.addResult with
          | .error _ => ⟨.error (.ise .ioError), g1, acts ++ [.writeMeta, .add]⟩
          | .ok _ =>
            match env.commitResult with
            | .error _ =>
              ⟨.error (.ise .ioError), g1, acts ++ [.writeMeta, .add, .commit]⟩
            | .ok newHead =>
              match GitRepo.push env.pushSpawn with
              | .error _ =>
                ⟨.error (.ise .ioError), ⟨newHead, newHead⟩,
                  acts ++ [.writeMeta, .add, .commit, .push]⟩
              | .ok _ =>
                ⟨.ok ⟨repoId, pkgId, true⟩, ⟨newHead, newHead⟩,
                  acts ++ [.writeMeta, .add, .commit, .push]⟩

/-- Claim C5: a create request for a recognized repository whose package
descriptor file already exists returns the conflict error and performs no
workspace mutation at all: no cleanup commands, no file write, no stage,
no commit, no push, and the workspace state (in particular `head_ref`,
the `headVersion`) is unchanged. -/
theorem claim_c5_create_conflict (cfg : Config) (repoId pkgId : String)
    (env : MutEnv) (g : GitState)
    (hrepo : cfg.repos.contains repoId = true) :
    create_package_metadata cfg repoId pkgId true env g =
      ⟨.error (.conflict pkgId), g, []⟩ := by
  have hmem : repoId ∈ cfg.repos := by simpa using hrepo
  simp [create_package_metadata, hmem]

/-- Witness for C5 at a concrete request. -/
theorem claim_c5_witness :
    (⟨["r"], "https://pahkat.example", "main"⟩ : Config).repos.contains "r" = true ∧
    create_package_metadata ⟨["r"], "https://pahkat.example", "main"⟩ "r" "p" true
        ⟨"v1", .ok, .ok (), fun _ => none, .ok (), .ok (), .ok "v2", .ok true⟩
        ⟨"v0", "v0"⟩ =
      ⟨.error (.conflict "p"), ⟨"v0", "v0"⟩, []⟩ :=
  ⟨by decide,
    claim_c5_create_conflict ⟨["r"], "https://pahkat.example", "main"⟩ "r" "p"
      ⟨"v1", .ok, .ok (), fun _ => none, .ok (), .ok (), .ok "v2", .ok true⟩
      ⟨"v0", "v0"⟩ (by decide)⟩

/-- Counterexample to claim C3 as stated: a concrete create request in
which the commit succeeds and the push step then fails — the `git push`
subprocess runs and exits unsuccessfully (`pushSpawn = .ok false`, e.g.
the remote rejected the push) — yet the operation reports success.
`GitRepo::push` (git.rs:80-86) discards the exit status, so it returns
`Ok` and the handler replies with the success:true response instead of a
failed operation. -/
theorem claim_c3_counterexample :
    GitRepo.push (.ok false) = .ok () ∧
    (create_package_metadata ⟨["r"], "https://pahkat.example", "main"⟩ "r" "p" false
        ⟨"v1", .ok, .ok (), fun _ => some "1.0.0", .ok (), .ok (), .ok "v2", .ok false⟩
        ⟨"v0", "v0"⟩).result = .ok ⟨"r", "p", true⟩ :=
  ⟨rfl, rfl⟩

/-- Claim C3 as amended: the only push failure a mutation can observe is
`GitRepo::push` returning `Err`, which happens exactly when the `git
push` subprocess fails to spawn; in that case, after a successful commit,
both mutations report a failed operation to the caller (the 500 error,
never the success response), even though the local commit is not rolled
back — `head_ref` keeps the new commit id.  A push that does spawn is
reported as success whatever its exit status: a push the remote rejected
still produces the success:true response, because `GitRepo::push`
discards the exit status. -/
theorem claim_c3_push_failure_surfaces (cfg : Config) (repoId pkgId : String)
    (env : MutEnv) (version : String) (g : GitState) (newHead : String)
    (hrepo : cfg.repos.contains repoId = true)
    (hclean : env.cleanupOutcome = .ok)
    (hinit : env.initResult = .ok ())
    (hparse : ∃ v, env.parseVersion version = some v)
    (hupd : env.updateResult = .ok ())
    (hadd : env.addResult = .ok ())
    (hcommit : env.commitResult = .ok newHead) :
    (env.pushSpawn = .error () →
      (create_package_metadata cfg repoId pkgId false env g).result =
        .error (.ise .ioError) ∧
      (create_package_metadata cfg repoId pkgId false env g).git.head_ref =
        newHead ∧
      (update_package_metadata cfg repoId pkgId true env version g).result =
        .error (.ise .ioError) ∧
      (update_package_metadata cfg repoId pkgId true env version g).git.head_ref =
        newHead) ∧
    (∀ exitOk : Bool, env.pushSpawn = .ok exitOk →
      (create_package_metadata cfg repoId pkgId false env g).result =
        .ok ⟨repoId, pkgId, true⟩ ∧
      (update_package_metadata cfg repoId pkgId true env version g).result =
        .ok ⟨repoId, pkgId, true⟩) := by
  obtain ⟨v, hv⟩ := hparse
  have hmem : repoId ∈ cfg.repos := by simpa using hrepo
  constructor
  · intro hpush
    refine ⟨?_, ?_, ?_, ?_⟩ <;>
      simp [create_package_metadata, update_package_metadata, GitRepo.cleanup,
        GitRepo.push, hmem, hclean, hinit, hv, hupd, hadd, hcommit, hpush]
  · intro exitOk hpush
    refine ⟨?_, ?_⟩ <;>
      simp [create_package_metadata, update_package_metadata, GitRepo.cleanup,
        GitRepo.push, hmem, hclean, hinit, hv, hupd, hadd, hcommit, hpush]

/-- Witness for the amended C3 at a concrete request: commit succeeded at
`v2`, the push subprocess fails to spawn, the response is the 500 error
and `head_ref` stays at `v2`. -/
theorem claim_c3_witness :
    (create_package_metadata ⟨["r"], "https://pahkat.example", "main"⟩ "r" "p" false
        ⟨"v1", .ok, .ok (), fun _ => some "1.0.0", .ok (), .ok (), .ok "v2", .error ()⟩
        ⟨"v0", "v0"⟩).result = .error (.ise .ioError) ∧
    (create_package_metadata ⟨["r"], "https://pahkat.example", "main"⟩ "r" "p" false
        ⟨"v1", .ok, .ok (), fun _ => some "1.0.0", .ok (), .ok (), .ok "v2", .error ()⟩
        ⟨"v0", "v0"⟩).git.head_ref = "v2" := by
  have h := claim_c3_push_failure_surfaces
    ⟨["r"], "https://pahkat.example", "main"⟩ "r" "p"
    ⟨"v1", .ok, .ok (), fun _ => some "1.0.0", .ok (), .ok (), .ok "v2", .error ()⟩
    "1.0.0" ⟨"v0", "v0"⟩ "v2" (by decide) rfl rfl ⟨"1.0.0", rfl⟩ rfl rfl rfl
  have h2 := h.1 rfl
  exact ⟨h2.1, h2.2.1⟩

/-- The update-with-unparsable-version scenario of claim C6, evaluated:
repository recognized, package exists, version does not parse. -/
def c6_outcome : MutOutcome :=
  update_package_metadata ⟨["r"], "https://pahkat.example", "main"⟩ "r" "p" true
    ⟨"v1", .ok, .ok (), fun _ => none, .ok (), .ok (), .ok "v2", .ok true⟩
    "not-a-version" ⟨"v0", "v0"⟩

/-- Counterexample to claim C6 as stated: at this concrete request the
handler does NOT return the invalid-input (400) error —
it wraps the version-parse failure in a 500 internal server error — and
it does NOT leave workspace state untouched: it has already run the
cleanup (clean, fetch, hard-reset), so the working tree was reset to the
remote tip `v1` (it started at `v0`). -/
theorem claim_c6_counterexample :
    c6_outcome.result ≠ .error .badRequest ∧
    c6_outcome.actions ≠ [] ∧
    c6_outcome.git.actualHead ≠ "v0" := by
  refine ⟨?_, ?_, ?_⟩ <;> decide

/-- Claim C6 as amended: with a recognized repository, an existing
package, a successful cleanup and an unparsable version string, the
handler returns the version-parse failure wrapped as an internal server
error (500, not a 400 invalid-input response), performs no metadata
write, no stage, no commit and no push, and leaves `head_ref` unchanged;
however it does first run the cleanup sequence (clean, fetch, hard-reset),
so the working tree is resynchronized to the remote tip. -/
theorem claim_c6_invalid_version (cfg : Config) (repoId pkgId : String)
    (env : MutEnv) (version : String) (g : GitState)
    (hrepo : cfg.repos.contains repoId = true)
    (hclean : env.cleanupOutcome = .ok)
    (hparse : env.parseVersion version = none) :
    update_package_metadata cfg repoId pkgId true env version g =
      ⟨.error (.ise .versionError), { g with actualHead := env.remoteTip },
        [.clean, .fetch, .reset]⟩ := by
  have hmem : repoId ∈ cfg.repos := by simpa using hrepo
  simp [update_package_metadata, GitRepo.cleanup, hmem, hclean, hparse]

/-- Witness for the amended C6 at the concrete request of the
counterexample. -/
theorem claim_c6_witness :
    c6_outcome =
      ⟨.error (.ise .versionError), ⟨"v0", "v1"⟩, [.clean, .fetch, .reset]⟩ :=
  claim_c6_invalid_version ⟨["r"], "https://pahkat.example", "main"⟩ "r" "p"
    ⟨"v1", .ok, .ok (), fun _ => none, .ok (), .ok (), .ok "v2", .ok true⟩
    "not-a-version" ⟨"v0", "v0"⟩ (by decide) rfl rfl

/-- Claim C7 as stated is refuted by this evaluation: `GitRepo::cleanup`
succeeds (clean, fetch, hard-reset all run), the fetched remote tip is
`v1`, the working tree ends at `v1`, yet the `head_ref` field — the
`headVersion` that `currentVersion()` returns — still holds the old `v0`:
the method takes `&self` and never runs `rev-parse` afterwards. -/
theorem claim_c7_cleanup_stale_head :
    (GitRepo.cleanup
        ⟨"v1", .ok, .ok (), fun _ => none, .ok (), .ok (), .ok "v2", .ok true⟩
        ⟨"v0", "v0"⟩) =
      (.ok ⟨"v0", "v1"⟩, [.clean, .fetch, .reset]) ∧
    ("v0" : String) ≠ "v1" := by
  refine ⟨rfl, by decide⟩

/-- The environment the reconciliation machinery runs against:
`listing v r` is the content of repository `r`'s `packages/` directory in
the immutable git tree at commit `v` (`.error` models a `create_dir_all` /
`read_dir` IO failure).  What an export actually hands to
`generate_repo_index` is `exportListing` below, not `listing` itself,
because the export can silently fail. -/
structure RepoEnv where
  listing : String → RepoId → Except Unit (List DirEntry)

/-- What `generate_repo_index` finds inside the tempdir produced by
`shallow_clone_to_tempdir` (git.rs:107-117) when the tree is at commit
`v`.  The method runs `git clone --depth 1` with `.output()?`, which
surfaces only a spawn failure and DISCARDS the exit status: when the
clone runs and fails, the method still returns `Ok` with an empty
tempdir, and `generate_repo_index` then `create_dir_all`s the missing
`packages/` directory and reads an empty listing.  So the export is the
tree at `v` only when the clone actually succeeded (`cloneOk`), and the
empty listing otherwise. -/
def exportListing (env : RepoEnv) (cloneOk : Bool) (v : String) (r : RepoId) :
    Except Unit (List DirEntry) :=
  if cloneOk then env.listing v r else .ok []

/-- The catalog `generate_repo_index` produces for repository `r` from the
true tree at commit `v` (a successful export of that commit). -/
def buildAt (env : RepoEnv) (v : String) (r : RepoId) : Except Unit Bytes :=
  generate_repo_index (env.listing v r)

/-- Global state of the server: the `GitRepo.head_ref` field, the commit
the shared working tree is actually checked out at, and the per-repository
`ArcSwap` slots, each holding one atomically-replaceable
(content version, catalog bytes) pair. -/
structure SysState where
  headField : String
  actualHead : String
  slots : RepoId → String × Bytes

/-- Steps of the system, as the source performs them.
`cleanup` is `GitRepo::cleanup`: the working tree moves to the fetched
remote tip, the `head_ref` field is NOT written (src/git.rs takes
`&self`).  `commit` is `commit_create` / `commit_update`: the tree and the
field both move to the new commit (`rev-parse HEAD` after committing).
`publish` is one iteration of `refresh_indexes`'s loop (src/main.rs
714-735) / `set_repo_indexes` (src/state.rs 35-38): under one read guard
the shallow clone and the `head_ref` field are taken together, and the
slot is replaced in a single swap with the pair (field, catalog built from
what the export produced — the tree at the current commit when the clone
succeeded, an empty directory when the clone ran but failed, since its
exit status is discarded); the swap only happens when the slot's stored
version differs from the field, and only when generation succeeded (a
generation failure panics before any swap, and a clone spawn failure
returns `Err` before the loop, so neither publishes). -/
inductive Step (env : RepoEnv) : SysState → SysState → Prop
| cleanup (s : SysState) (tip : String) :
    Step env s { s with actualHead := tip }
| commit (s : SysState) (h : String) :
    Step env s { headField := h, actualHead := h, slots := s.slots }
| publish (s : SysState) (r : RepoId) (b : Bytes) (cloneOk : Bool)
    (hok : generate_repo_index (exportListing env cloneOk s.actualHead r) = .ok b)
    (hstale : (s.slots r).1 ≠ s.headField) :
    Step env s
      { s with slots := fun x => if x = r then (s.headField, b) else s.slots x }

/-- Startup initialization (src/state.rs `init_repo_indexes` /
src/main.rs `run`): `GitRepo::new` records `rev-parse HEAD` = `v0` in the
field, then `cleanup` checks the tree out at the remote tip `v1` without
touching the field, then every slot is filled with the pair
(`v0`, catalog built from a clone of the tree at `v1`). -/
def InitState (env : RepoEnv) (v0 v1 : String) (s : SysState) : Prop :=
  s.headField = v0 ∧ s.actualHead = v1 ∧
    ∀ r, (s.slots r).1 = v0 ∧ buildAt env v1 r = .ok (s.slots r).2

/-- States the running server can be in. -/
inductive Reachable (env : RepoEnv) : SysState → Prop
| init (v0 v1 : String) (s : SysState) : InitState env v0 v1 s → Reachable env s
| step (s t : SysState) : Reachable env s → Step env s t → Reachable env t

/-- Claim C1's consistency property: every slot's catalog bytes are the
catalog built from the workspace tree at exactly the slot's stored
content version. -/
def CatalogMatchesVersion (env : RepoEnv) (s : SysState) : Prop :=
  ∀ r, buildAt env (s.slots r).1 r = .ok (s.slots r).2

/-- A concrete package used by the counterexample environment. -/
def c1pkg : Package := .concrete ⟨"p", [], [], [], []⟩

/-- Counterexample environment: at commit `v1` repository `r` has one
well-formed package, at any other commit it is empty. -/
def c1env : RepoEnv :=
  ⟨fun v _ => if v = "v1" then .ok [goodEntry c1pkg] else .ok []⟩

/-- The state produced by startup when the process comes up with local
HEAD `v0` while the remote branch has advanced to `v1`: the field holds
`v0`, the tree is reset to `v1`, every slot holds (`v0`, catalog of the
`v1` tree). -/
def c1state : SysState :=
  ⟨"v0", "v1", fun _ => ("v0", build_index [c1pkg])⟩

/-- Counterexample to claim C1 as stated: the state reached by starting
the server while the remote is ahead of the local HEAD is reachable, yet
its slot for repository `r` pairs content version `v0` with catalog bytes
that were built from the tree at `v1` — not the catalog of the `v0` tree —
so the read path returns a version paired with a catalog that was not
derived from that version. -/
theorem claim_c1_counterexample :
    Reachable c1env c1state ∧ ¬ CatalogMatchesVersion c1env c1state := by
  constructor
  · exact .init "v0" "v1" c1state ⟨rfl, rfl, fun _ => ⟨rfl, rfl⟩⟩
  · intro hmatch
    have h := hmatch "r"
    have hbuild : buildAt c1env "v0" "r" = .ok (build_index []) := rfl
    rw [show (c1state.slots "r").1 = "v0" from rfl, hbuild] at h
    have : build_index [] = (c1state.slots "r").2 := by
      injection h
    have hne : build_index [] ≠ build_index [c1pkg] := by decide
    exact hne (this.trans rfl)

/-- Environment for the silently-failed-clone scenario: the true tree
holds one well-formed package at every commit. -/
def cloneFailEnv : RepoEnv := ⟨fun _ _ => .ok [goodEntry c1pkg]⟩

/-- The state reached by a synced startup at `v0`, a commit moving both
the tree and `head_ref` to `v2`, and then a reconciliation publish for
repository `r` whose `git clone` ran and failed: the tick reads the empty
tempdir and installs the empty catalog tagged `v2`. -/
def cloneFailState : SysState :=
  ⟨"v2", "v2",
    fun x => if x = "r" then ("v2", build_index []) else ("v0", build_index [c1pkg])⟩

/-- A silently failed shallow-clone export breaks the consistency
property even though every cleanup in the trace was synchronized:
`shallow_clone_to_tempdir` discards `git clone`'s exit status, so the
publish builds from an empty tempdir and the slot pairs version `v2` with
the empty catalog, while the tree at `v2` holds a package.  This is why
the amended C1 needs the successful-export proviso. -/
theorem publish_after_failed_clone_breaks_consistency :
    Reachable cloneFailEnv cloneFailState ∧
    ¬ CatalogMatchesVersion cloneFailEnv cloneFailState := by
  constructor
  · refine .step ⟨"v2", "v2", fun _ => ("v0", build_index [c1pkg])⟩ cloneFailState
      (.step ⟨"v0", "v0", fun _ => ("v0", build_index [c1pkg])⟩
        ⟨"v2", "v2", fun _ => ("v0", build_index [c1pkg])⟩
        (.init "v0" "v0" ⟨"v0", "v0", fun _ => ("v0", build_index [c1pkg])⟩
          ⟨rfl, rfl, fun _ => ⟨rfl, rfl⟩⟩)
        (.commit ⟨"v0", "v0", fun _ => ("v0", build_index [c1pkg])⟩ "v2"))
      (.publish ⟨"v2", "v2", fun _ => ("v0", build_index [c1pkg])⟩ "r"
        (build_index []) false rfl (by decide))
  · intro h
    have hr := h "r"
    have hb : buildAt cloneFailEnv "v2" "r" = .ok (build_index [c1pkg]) := rfl
    rw [show (cloneFailState.slots "r").1 = "v2" from rfl, hb] at hr
    have heq : build_index [c1pkg] = (cloneFailState.slots "r").2 := by
      injection hr
    have hne : build_index [c1pkg] ≠ build_index [] := by decide
    exact hne (heq.trans rfl)

/-- The reachability relation restricted to synchronized, fully
successful operation: the startup cleanup and every later cleanup land
exactly on the version already recorded in the `head_ref` field (the
remote never moves the tree away from the recorded head), and every
publication's shallow-clone export actually succeeded — its `publish`
builds from `buildAt`, i.e. from `exportListing env true`, the true tree
at the current commit, never from the empty tempdir a silently failed
clone leaves behind. -/
inductive SyncedReachable (env : RepoEnv) : SysState → Prop
| init (v : String) (s : SysState) : InitState env v v s → SyncedReachable env s
| cleanup (s : SysState) :
    SyncedReachable env s → SyncedReachable env { s with actualHead := s.headField }
| commit (s : SysState) (h : String) :
    SyncedReachable env s →
    SyncedReachable env { headField := h, actualHead := h, slots := s.slots }
| publish (s : SysState) (r : RepoId) (b : Bytes) :
    SyncedReachable env s →
    buildAt env s.actualHead r = .ok b →
    (s.slots r).1 ≠ s.headField →
    SyncedReachable env
      { s with slots := fun x => if x = r then (s.headField, b) else s.slots x }

theorem syncedReachable_invariant (env : RepoEnv) (s : SysState)
    (h : SyncedReachable env s) :
    s.headField = s.actualHead ∧ CatalogMatchesVersion env s := by
  induction h with
  | init v s hinit =>
    obtain ⟨hf, ha, hsl⟩ := hinit
    refine ⟨hf.trans ha.symm, fun r => ?_⟩
    rw [(hsl r).1]
    exact (hsl r).2
  | cleanup s _ ih => exact ⟨ih.1.symm ▸ rfl, ih.2⟩
  | commit s hnew _ ih => exact ⟨rfl, ih.2⟩
  | publish s r b _ hok _ ih =>
    refine ⟨ih.1, fun x => ?_⟩
    by_cases hx : x = r
    · show buildAt env (if x = r then (s.headField, b) else s.slots x).1 x =
        .ok (if x = r then (s.headField, b) else s.slots x).2
      rw [if_pos hx]
      show buildAt env s.headField x = .ok b
      rw [hx, ih.1]
      exact hok
    · show buildAt env (if x = r then (s.headField, b) else s.slots x).1 x =
        .ok (if x = r then (s.headField, b) else s.slots x).2
      rw [if_neg hx]
      exact ih.2 x

/-- Claim C1 as amended: each slot is replaced only as a whole — one
publish installs the version tag and the catalog bytes together, so a read
never observes the version of one publication with the catalog of another —
and in every reachable state of synchronized, fully successful operation
(every cleanup, including the startup one, lands on the version already
recorded in `head_ref`, and every publication's shallow-clone export
actually succeeded) the catalog bytes of every slot were built from the
workspace tree at exactly the slot's stored content version.  Both
provisos are necessary: without the first the version tag can be stale,
because `GitRepo::cleanup` moves the tree without updating `head_ref`
(see the counterexample), and without the second a `git clone` that runs
and fails is reported as `Ok` — its exit status is discarded — so the
tick publishes the empty catalog of the empty tempdir tagged with
`head_ref` (see `publish_after_failed_clone_breaks_consistency`). -/
theorem claim_c1_atomic_snapshot (env : RepoEnv) (s : SysState)
    (h : SyncedReachable env s) : CatalogMatchesVersion env s :=
  (syncedReachable_invariant env s h).2

/-- Witness for the amended C1: a concretely initialized synchronized
server state satisfies the consistency property. -/
theorem claim_c1_witness :
    CatalogMatchesVersion c1env
      ⟨"v1", "v1", fun _ => ("v1", build_index [c1pkg])⟩ :=
  claim_c1_atomic_snapshot c1env
    ⟨"v1", "v1", fun _ => ("v1", build_index [c1pkg])⟩
    (.init "v1" ⟨"v1", "v1", fun _ => ("v1", build_index [c1pkg])⟩
      ⟨rfl, rfl, fun _ => ⟨rfl, rfl⟩⟩)

/-- The per-repository loop body of src/main.rs `refresh_indexes`
(lines 723-732): for each configured repository in iteration order, load
the slot; if its stored version equals the `head_ref` captured with the
clone, skip; otherwise run `generate_repo_index` on the clone —
`.unwrap()` panics on its `Err`, which stops the iteration with the
remaining repositories unprocessed — and on success swap the slot with the
new (version, catalog) pair.  Returns the slots as left when the loop
stops and whether it panicked. -/
def tickLoop (env : RepoEnv) (field actual : String) :
    List RepoId → (RepoId → String × Bytes) → ((RepoId → String × Bytes) × Bool)
| [], slots => (slots, false)
| r :: rs, slots =>
  if (slots r).1 = field then tickLoop env field actual rs slots
  else
    match buildAt env actual r with
    | .ok b =>
      tickLoop env field actual rs (fun x => if x = r then (field, b) else slots x)
    | .error _ => (slots, true)

/-- Outcome of one `refresh_indexes` call: normal completion with the
updated slots, an `Err` return (logged by the caller), or a panic that
unwinds out of the async task. -/
inductive TickResult
| ok (slots : RepoId → String × Bytes)
| err
| panic (slots : RepoId → String × Bytes)

/-- src/main.rs `refresh_indexes`: take the shallow clone and `head_ref`
under one read guard — a clone failure propagates as `Err` — then run the
per-repository loop. -/
def refresh_indexes (env : RepoEnv) (cloneOk : Bool) (s : SysState)
    (order : List RepoId) : TickResult :=
  if cloneOk then
    let res := tickLoop env s.headField s.actualHead order s.slots
    if res.2 then .panic res.1 else .ok res.1
  else .err

/-- The reconciliation task of src/main.rs `refresh_indexes_forever`:
alive (sleeping / ticking) or dead (its future panicked). -/
inductive LoopState
| running
| dead
deriving DecidableEq

/-- One timer expiry of `refresh_indexes_forever`: an `Err` from
`refresh_indexes` is logged and the loop continues; a panic unwinds
through the `.await` and kills the spawned task. -/
def loopStep (env : RepoEnv) (cloneOk : Bool) (s : SysState)
    (order : List RepoId) : LoopState → LoopState
| .dead => .dead
| .running =>
  match refresh_indexes env cloneOk s order with
  | .panic _ => .dead
  | _ => .running

/-- Counterexample environment for C2: generating repository `r1` fails
with an IO error, generating `r2` succeeds. -/
def c2env : RepoEnv :=
  ⟨fun _ r => if r = "r1" then .error () else .ok []⟩

/-- Counterexample state for C2: both repositories' slots are outdated
(stored version `h0`, current `head_ref` `h1`), so both are due for a
rebuild in the tick. -/
def c2state : SysState := ⟨"h1", "h1", fun _ => ("h0", [42])⟩

/-- Counterexample to claim C2 as stated: in a tick over `[r1, r2]` where
rebuilding `r1` fails while `r2` would rebuild fine
(`buildAt` succeeds for it), the `.unwrap()` panics: the tick does not
return to idle — the spawned loop task dies — and `r2`, although due for a
rebuild, is left untouched, its slot still holding the outdated pair. -/
theorem claim_c2_counterexample :
    (tickLoop c2env "h1" "h1" ["r1", "r2"] c2state.slots).2 = true ∧
    (tickLoop c2env "h1" "h1" ["r1", "r2"] c2state.slots).1 "r2" = ("h0", [42]) ∧
    buildAt c2env "h1" "r2" = .ok (build_index []) ∧
    loopStep c2env true c2state ["r1", "r2"] .running = .dead := by
  refine ⟨rfl, rfl, rfl, rfl⟩

theorem tickLoop_no_panic (env : RepoEnv) (field actual : String)
    (order : List RepoId) :
    ∀ slots : RepoId → String × Bytes,
      (∀ r ∈ order, (slots r).1 = field ∨ ∃ b, buildAt env actual r = .ok b) →
      (tickLoop env field actual order slots).2 = false := by
  induction order with
  | nil => intro slots _; rfl
  | cons r rs ih =>
    intro slots h
    rw [tickLoop]
    by_cases hup : (slots r).1 = field
    · rw [if_pos hup]
      exact ih slots fun x hx => h x (List.mem_cons_of_mem r hx)
    · rw [if_neg hup]
      rcases h r (List.mem_cons_self r rs) with hfield | ⟨b, hb⟩
      · exact absurd hfield hup
      · rw [hb]
        refine ih _ fun x hx => ?_
        by_cases hxr : x = r
        · left
          rw [if_pos hxr]
        · rcases h x (List.mem_cons_of_mem r hx) with hfield | hok
          · left
            rw [if_neg hxr]
            exact hfield
          · right
            exact hok

/-- Claim C2 as amended: a failure of the shallow-clone export makes the
tick return `Err`, which is logged and is not fatal — the loop returns to
its idle state; and whenever every configured repository is either up to
date or generates its index successfully, the tick completes normally and
the loop returns to idle.  But (see the counterexample) a failure while
generating one repository's index panics the task: the remaining
repositories of that tick are not rebuilt and the loop never runs again. -/
theorem claim_c2_loop_survives (env : RepoEnv) (s : SysState)
    (order : List RepoId) :
    (refresh_indexes env false s order = .err ∧
      loopStep env false s order .running = .running) ∧
    ((∀ r ∈ order,
        (s.slots r).1 = s.headField ∨ ∃ b, buildAt env s.actualHead r = .ok b) →
      ∃ sl, refresh_indexes env true s order = .ok sl ∧
        loopStep env true s order .running = .running) := by
  constructor
  · exact ⟨rfl, rfl⟩
  · intro h
    have hnp := tickLoop_no_panic env s.headField s.actualHead order s.slots h
    refine ⟨(tickLoop env s.headField s.actualHead order s.slots).1, ?_, ?_⟩
    · simp [refresh_indexes, hnp]
    · simp [loopStep, refresh_indexes, hnp]

/-- Witness for the amended C2 at a concrete tick: one outdated repository
whose generation succeeds, one up-to-date repository. -/
theorem claim_c2_witness :
    (∀ r ∈ (["r1", "r2"] : List RepoId),
      ((⟨"h1", "h1", fun x => if x = "r1" then ("h0", [42]) else ("h1", [7])⟩ :
          SysState).slots r).1 = "h1" ∨
        ∃ b, buildAt ⟨fun _ _ => .ok []⟩ "h1" r = .ok b) ∧
    ∃ sl,
      refresh_indexes ⟨fun _ _ => .ok []⟩ true
          ⟨"h1", "h1", fun x => if x = "r1" then ("h0", [42]) else ("h1", [7])⟩
          ["r1", "r2"] = .ok sl ∧
      loopStep ⟨fun _ _ => .ok []⟩ true
          ⟨"h1", "h1", fun x => if x = "r1" then ("h0", [42]) else ("h1", [7])⟩
          ["r1", "r2"] .running = .running := by
  have hpre : ∀ r ∈ (["r1", "r2"] : List RepoId),
      ((⟨"h1", "h1", fun x => if x = "r1" then ("h0", [42]) else ("h1", [7])⟩ :
          SysState).slots r).1 = "h1" ∨
        ∃ b, buildAt ⟨fun _ _ => .ok []⟩ "h1" r = .ok b := by
    intro r _
    right
    exact ⟨build_index [], rfl⟩
  exact ⟨hpre,
    (claim_c2_loop_survives ⟨fun _ _ => .ok []⟩
      ⟨"h1", "h1", fun x => if x = "r1" then ("h0", [42]) else ("h1", [7])⟩
      ["r1", "r2"]).2 hpre⟩

/-- Numeric value of a decimal digit character. -/
def digitVal? (c : Char) : Option Nat :=
  if c.isDigit then some (c.toNat - 48) else none

/-- Decimal number from a digit run; empty or non-digit input fails. -/
def digitsToNat? : List Char → Option Nat
| [] => none
| cs =>
  cs.foldl
    (fun acc c =>
      match acc, digitVal? c with
      | some n, some d => some (n * 10 + d)
      | _, _ => none)
    (some 0)

/-- Split a character list on dots. -/
def splitOnDot (cs : List Char) : List (List Char) :=
  cs.foldr
    (fun c acc =>
      if c = '.' then [] :: acc
      else
        match acc with
        | [] => [[c]]
        | g :: gs => (c :: g) :: gs)
    [[]]

/-- The MAJOR.MINOR.PATCH key of a pahkat_types `SemanticVersion`
(external crate); a string that is not of that shape has no key —
the source `panic!`s on a non-semantic version in the workaround path. -/
def parseSemver (s : String) : Option (Nat × Nat × Nat) :=
  match (splitOnDot s.toList).map digitsToNat? with
  | [some a, some b, some c] => some (a, b, c)
  | _ => none

/-- Strict lexicographic order on semver keys. -/
def semverLt (x y : Nat × Nat × Nat) : Bool :=
  Nat.blt x.1 y.1 ||
    (x.1 == y.1 &&
      (Nat.blt x.2.1 y.2.1 || (x.2.1 == y.2.1 && Nat.blt x.2.2 y.2.2)))

/-- Key every release by its parsed semantic version; any unparsable
version aborts (the source's `panic!("invalid version")`). -/
def releaseKeys : List Release → Option (List (Release × (Nat × Nat × Nat)))
| [] => some []
| r :: rs =>
  match parseSemver r.version, releaseKeys rs with
  | some k, some ks => some ((r, k) :: ks)
  | _, _ => none

/-- Rust `Iterator::max_by_key`: `none` on an empty list, otherwise the
last element with a maximal key. -/
def pickMaxLast : List (Release × (Nat × Nat × Nat)) → Option Release
| [] => none
| x :: xs => some ((xs.foldl (fun m y => if semverLt y.2 m.2 then m else y) x).1)

/-- The obfuscated payload URL the workaround substitutes:
BASE/GUID/NAME-NONCE.exe. -/
def workaroundUrl (base guid name nonce : String) : String :=
  base ++ "/" ++ guid ++ "/" ++ name ++ "-" ++ nonce ++ ".exe"

/-- src/main.rs `generate_010_workaround_index`, per descriptor: keep the
channel-less releases that have a windows target, take the semver-maximal
one (`.unwrap()`: none on failure, which the caller turns into a panic),
force its version to 99.0.0, keep only its first windows target with the
payload URL rewritten to the obfuscated per-process-nonce URL. -/
def rewriteFor010 (cfg : Config) (nonce guid name : String) (d : Descriptor) :
    Option Package :=
  let candidates := d.release.filter
    (fun r => r.channel.isNone && r.targets.any (fun t => t.platform == "windows"))
  match releaseKeys candidates with
  | none => none
  | some keyed =>
    match pickMaxLast keyed with
    | none => none
    | some rel =>
      match rel.targets.find? (fun t => t.platform == "windows") with
      | none => none
      | some tgt =>
        some (.concrete { d with release :=
          [{ version := "99.0.0", channel := rel.channel,
             targets := [{ platform := tgt.platform,
                           payloadUrl := workaroundUrl cfg.url guid name nonce }] }] })

/-- What `generate_010_workaround_index` reads from disk at call time:
the parsed `index.toml` of the `divvun-installer` and `pahkat-service`
packages (none = unreadable or unparsable file). -/
structure LegacyEnv where
  dmFile : Option Descriptor
  pahkatFile : Option Descriptor

/-- src/main.rs `generate_010_workaround_index`: read + parse both
descriptors (failure returns `Err`), rewrite each to its synthetic
99.0.0 single-windows-target form, and build the two-package catalog.
Any failure — including the internal `.unwrap()` panics — is `none`, which
the caller's `.unwrap()` turns into a task panic. -/
def generate_010_workaround_index (cfg : Config) (nonce : String)
    (env : LegacyEnv) : Option Bytes :=
  match env.dmFile, env.pahkatFile with
  | some dm, some pk =>
    match
      rewriteFor010 cfg nonce "1AAB4845-32A9-41A8-BBDE-120847548A81"
        "divvun-installer" dm,
      rewriteFor010 cfg nonce "1AAB4845-32A9-41A8-BBDE-120847548A82"
        "pahkat-service" pk
    with
    | some p1, some p2 => some (build_index [p1, p2])
    | _, _ => none
  | _, _ => none

/-- Per-process state of src/openapi.rs: the `DIVVUN_INST_REPO_INDEX`
`OnceCell` and the per-process random `NONCE` (a `Lazy` UUID, fixed for
the process lifetime). -/
structure ProcState where
  divvunInstCache : Option Bytes
  nonce : String
deriving DecidableEq

/-- Response of the binary-index endpoint. -/
inductive BinResult
| ok (b : Bytes)
| notFound
| panic
deriving DecidableEq

/-- src/openapi.rs `repository_index_bin`: a `pahkat-client/0.1.0`
User-Agent asking for `divvun-installer` is served from the `OnceCell` —
`get_or_init` computes the workaround index from the current workspace
content only when the cell is unset, and a panic during initialization
leaves the cell unset; any other repository on that User-Agent gets the
(likewise process-cached) empty index; every other caller gets the current
slot's catalog, or 404 for an unconfigured repository. -/
def repository_index_bin (cfg : Config) (st : ProcState) (repoId : RepoId)
    (userAgent : Option String) (env : LegacyEnv)
    (slots : RepoId → Option (String × Bytes)) : BinResult × ProcState :=
  let ua := userAgent.getD ""
  if ua = "pahkat-client/0.1.0" then
    if repoId = "divvun-installer" then
      match st.divvunInstCache with
      | some b => (.ok b, st)
      | none =>
        match generate_010_workaround_index cfg st.nonce env with
        | some b => (.ok b, { st with divvunInstCache := some b })
        | none => (.panic, st)
    else (.ok generate_empty_index, st)
  else
    match slots repoId with
    | some slot => (.ok slot.2, st)
    | none => (.notFound, st)

/-- Claim C10: on the legacy path (User-Agent `pahkat-client/0.1.0`,
repository `divvun-installer`), the workaround catalog is computed at most
once per process: the first successful request computes it from the
workspace content and fills the cell, and every later legacy request —
whatever the workspace content has changed to, and whatever the slots
hold — returns the byte-identical cached catalog (with the same
per-process nonce baked into its URLs) without touching the cell again. -/
theorem claim_c10_legacy_cache (cfg : Config) (st : ProcState)
    (env1 : LegacyEnv) (slots1 : RepoId → Option (String × Bytes)) (b : Bytes)
    (hcache : st.divvunInstCache = none)
    (hgen : generate_010_workaround_index cfg st.nonce env1 = some b) :
    repository_index_bin cfg st "divvun-installer"
        (some "pahkat-client/0.1.0") env1 slots1 =
      (.ok b, { st with divvunInstCache := some b }) ∧
    ∀ (env2 : LegacyEnv) (slots2 : RepoId → Option (String × Bytes)),
      repository_index_bin cfg { st with divvunInstCache := some b }
          "divvun-installer" (some "pahkat-client/0.1.0") env2 slots2 =
        (.ok b, { st with divvunInstCache := some b }) := by
  constructor
  · simp [repository_index_bin, hcache, hgen]
  · intro env2 slots2
    simp [repository_index_bin]

/-- A concrete descriptor for the C10 witness: one stable release `1.2.3`
with a windows target. -/
def c10desc : Descriptor :=
  ⟨"divvun-installer", [], [], [],
    [⟨"1.2.3", none, [⟨"windows", "https://old.example/x.exe"⟩]⟩]⟩

/-- Configuration used by the C10 witness. -/
def c10cfg : Config := ⟨["divvun-installer"], "https://pahkat.example", "main"⟩

/-- The workaround catalog the witness's first request computes. -/
def c10bytes : Bytes :=
  (generate_010_workaround_index c10cfg "nonce0" ⟨some c10desc, some c10desc⟩).getD []

/-- Witness for C10: from an empty cell, a first legacy request computes
and caches the catalog; a second legacy request with completely different
workspace content (both descriptor files now unreadable) still returns the
same bytes. -/
theorem claim_c10_witness :
    repository_index_bin c10cfg ⟨none, "nonce0"⟩ "divvun-installer"
        (some "pahkat-client/0.1.0") ⟨some c10desc, some c10desc⟩ (fun _ => none) =
      (.ok c10bytes, ⟨some c10bytes, "nonce0"⟩) ∧
    repository_index_bin c10cfg ⟨some c10bytes, "nonce0"⟩ "divvun-installer"
        (some "pahkat-client/0.1.0") ⟨none, none⟩ (fun _ => none) =
      (.ok c10bytes, ⟨some c10bytes, "nonce0"⟩) := by
  have hgen : generate_010_workaround_index c10cfg "nonce0"
      ⟨some c10desc, some c10desc⟩ = some c10bytes := rfl
  have h := claim_c10_legacy_cache c10cfg ⟨none, "nonce0"⟩
    ⟨some c10desc, some c10desc⟩ (fun _ => none) c10bytes rfl hgen
  exact ⟨h.1, h.2 ⟨none, none⟩ (fun _ => none)⟩

end PahkatReposrv
